import Mathlib

/-!
Shallow embedding of `zoo/senet/se_resnext_c.py`, the SE-ResNeXt model
builder.  Each Keras layer application is modelled as a constructor of a
symbolic tensor type, so the assembled model is a term describing the layer
graph.  Pair-valued Python arguments such as `kernel_size=(3, 3)` and
`strides=(2, 2)` are passed as two natural numbers.  Weight initializers
and kernel regularizers (`init_weights`, `reg`) are training
hyper-parameters carried opaquely by every layer; they do not influence
the graph topology and are omitted from the embedding.

The class attribute `SEResNeXt.groups` is a mutable table shared between
constructions (Python aliases `groups = self.groups[n_layers]`, and
`learner` mutates that list via `groups.pop(0)`).  The embedding therefore
passes the table state explicitly: `construct` consumes a table and returns
the layer graph together with the table left behind for the next
construction.
-/

/-- One entry of the `groups` metaparameter table: number of filters in,
out and number of blocks (`se_resnext_c.py`, lines 26-39). -/
structure GroupCfg where
  filters_in : Nat
  filters_out : Nat
  n_blocks : Nat
deriving DecidableEq

/-- Activations attached to `Dense` layers in the source. -/
inductive Activation where
  | relu
  | sigmoid
  | softmax
deriving DecidableEq

mutual
/-- Symbolic Keras tensor: one constructor per layer kind instantiated by
the module (`Input`, `Conv2D`, `BatchNormalization`, `ReLU`,
`MaxPooling2D`, `GlobalAveragePooling2D`, `Reshape`, `Dense`, `Multiply`,
`Add`, the channel-slicing `Lambda`, and `Concatenate`).  All convolutions
in the source use `padding='same'`, so padding is not recorded. -/
inductive Tensor where
  | input (shp : List Nat)
  | conv2d (filters kh kw sh sw : Nat) (use_bias : Bool) (x : Tensor)
  | batchNorm (x : Tensor)
  | relu (x : Tensor)
  | maxPool (ph pw sh sw : Nat) (x : Tensor)
  | globalAvgPool (x : Tensor)
  | reshape (target : List Nat) (x : Tensor)
  | dense (units : Nat) (act : Activation) (use_bias : Bool) (x : Tensor)
  | multiply (a b : Tensor)
  | add (a b : Tensor)
  | slice (lo hi : Nat) (x : Tensor)
  | concat (xs : TensorList)

/-- The argument list of a `Concatenate` layer. -/
inductive TensorList where
  | nil
  | cons (x : Tensor) (xs : TensorList)
end

/-- Build a `Concatenate` argument list from a Lean list. -/
def TensorList.ofList : List Tensor → TensorList
  | [] => .nil
  | x :: xs => .cons x (TensorList.ofList xs)

mutual
/-- Number of channels (the last dimension, `x.shape[-1]`) of the tensor a
layer outputs, following Keras shape inference for the layers used. -/
def channels : Tensor → Nat
  | .input shp => shp.getLastD 0
  | .conv2d filters _ _ _ _ _ _ => filters
  | .batchNorm x => channels x
  | .relu x => channels x
  | .maxPool _ _ _ _ x => channels x
  | .globalAvgPool x => channels x
  | .reshape target _ => target.getLastD 0
  | .dense units _ _ _ => units
  | .multiply a b => max (channels a) (channels b)
  | .add a b => max (channels a) (channels b)
  | .slice lo hi x => min hi (channels x) - min lo (channels x)
  | .concat xs => channelsTL xs

/-- Total channels of the tensors concatenated along the channel axis. -/
def channelsTL : TensorList → Nat
  | .nil => 0
  | .cons x xs => channels x + channelsTL xs
end

/-- Ceiling division: the spatial output size of a stride-`s` layer with
`padding='same'` on an input of size `n`. -/
def cdiv (n s : Nat) : Nat := (n + s - 1) / s

mutual
/-- Full inferred output shape (without the batch dimension), following
Keras shape inference for the layers used by the module.  Inputs whose
rank does not fit a layer's expectation fall through unchanged. -/
def shape : Tensor → List Nat
  | .input shp => shp
  | .conv2d filters _ _ sh sw _ x =>
    match shape x with
    | [h, w, _] => [cdiv h sh, cdiv w sw, filters]
    | s => s
  | .batchNorm x => shape x
  | .relu x => shape x
  | .maxPool _ _ sh sw x =>
    match shape x with
    | [h, w, c] => [cdiv h sh, cdiv w sw, c]
    | s => s
  | .globalAvgPool x =>
    match shape x with
    | [_, _, c] => [c]
    | s => s
  | .reshape target _ => target
  | .dense units _ _ x => (shape x).dropLast ++ [units]
  | .multiply a b => List.zipWith max (shape a) (shape b)
  | .add a b => List.zipWith max (shape a) (shape b)
  | .slice lo hi x =>
    match shape x with
    | [h, w, c] => [h, w, min hi c - min lo c]
    | s => s
  | .concat xs => shapeConcat xs

/-- Shape of a `Concatenate` output: spatial dimensions of the first
argument, channels summed over all arguments. -/
def shapeConcat : TensorList → List Nat
  | .nil => []
  | .cons x xs =>
    match shape x with
    | [h, w, c] => [h, w, c + channelsTL xs]
    | s => s
end

namespace SEResNeXt

/-- The class attribute `SEResNeXt.groups` in its initial state: the
predefined group tables for depths 50, 101 and 152 (lines 27-39).
Depths outside the table map to the empty list (in Python, a missing
key; `construct` only reads the table after validating the depth). -/
def groups : Nat → List GroupCfg := fun n_layers =>
  if n_layers = 50 then
    [⟨128, 256, 3⟩, ⟨256, 512, 4⟩, ⟨512, 1024, 6⟩, ⟨1024, 2048, 3⟩]
  else if n_layers = 101 then
    [⟨128, 256, 3⟩, ⟨256, 512, 4⟩, ⟨512, 1024, 23⟩, ⟨1024, 2048, 3⟩]
  else if n_layers = 152 then
    [⟨128, 256, 3⟩, ⟨256, 512, 8⟩, ⟨512, 1024, 36⟩, ⟨1024, 2048, 3⟩]
  else []

/-- Construct the Stem Convolution Group (lines 89-98): 7×7 stride-2
convolution with 64 filters, batch norm, ReLU, 3×3 stride-2 max pool. -/
def stem (inputs : Tensor) : Tensor :=
  Tensor.maxPool 3 3 2 2
    (Tensor.relu
      (Tensor.batchNorm
        (Tensor.conv2d 64 7 7 2 2 false inputs)))

/-- Construct a Squeeze and Excite block (lines 132-175): global average
pooling, reshape to `1×1×C`, a ReLU `Dense` with `C // ratio` units, a
sigmoid `Dense` restoring `C` units, then element-wise multiply with the
unmodified input. -/
def squeeze_excite_block (x : Tensor) (ratio : Nat) : Tensor :=
  let shortcut := x
  let filters := channels x
  let x1 := Tensor.globalAvgPool x
  let x2 := Tensor.reshape [1, 1, filters] x1
  let x3 := Tensor.dense (filters / ratio) .relu false x2
  let x4 := Tensor.dense filters .sigmoid false x3
  Tensor.multiply shortcut x4

/-- The cardinality (wide) layer shared by `identity_block` (lines
206-212) and `projection_block` (lines 265-271): `cardinality` branches,
branch `i` slicing channels `[i*filters_card, i*filters_card+filters_card)`
of the input and applying a 3×3 convolution with `filters_card` filters. -/
def cardinality_layer (x : Tensor) (filters_card sh sw cardinality : Nat) : List Tensor :=
  (List.range cardinality).map (fun i =>
    Tensor.conv2d filters_card 3 3 sh sw false
      (Tensor.slice (i * filters_card) (i * filters_card + filters_card) x))

/-- The residual path of `identity_block` (lines 200-225): 1×1 dimension
reduction to `filters_in`, the cardinality layer (unstrided), its
concatenation, 1×1 dimension restoration to `filters_out`, then the
squeeze-excite block. -/
def identity_residual (x : Tensor) (cfg : GroupCfg) (cardinality ratio : Nat) : Tensor :=
  let x1 := Tensor.relu (Tensor.batchNorm
    (Tensor.conv2d cfg.filters_in 1 1 1 1 false x))
  let filters_card := cfg.filters_in / cardinality
  let branches := cardinality_layer x1 filters_card 1 1 cardinality
  let x2 := Tensor.relu (Tensor.batchNorm (Tensor.concat (TensorList.ofList branches)))
  let x3 := Tensor.batchNorm (Tensor.conv2d cfg.filters_out 1 1 1 1 false x2)
  squeeze_excite_block x3 ratio

/-- Construct a ResNeXt block with identity link (lines 177-230): the
residual path added to the unmodified input, then ReLU. -/
def identity_block (x : Tensor) (cfg : GroupCfg) (cardinality ratio : Nat) : Tensor :=
  let shortcut := x
  Tensor.relu (Tensor.add shortcut (identity_residual x cfg cardinality ratio))

/-- Construct a ResNeXt block with projection shortcut (lines 232-289):
a strided 1×1 projection of the input to `filters_out` channels (this
convolution keeps its default `use_bias=True`), the same residual path as
the identity block but with `strides` on the cardinality layer, then Add
and ReLU. -/
def projection_block (x : Tensor) (sh sw : Nat) (cfg : GroupCfg)
    (cardinality ratio : Nat) : Tensor :=
  let shortcut := Tensor.batchNorm
    (Tensor.conv2d cfg.filters_out 1 1 sh sw true x)
  let x1 := Tensor.relu (Tensor.batchNorm
    (Tensor.conv2d cfg.filters_in 1 1 1 1 false x))
  let filters_card := cfg.filters_in / cardinality
  let branches := cardinality_layer x1 filters_card sh sw cardinality
  let x2 := Tensor.relu (Tensor.batchNorm (Tensor.concat (TensorList.ofList branches)))
  let x3 := Tensor.batchNorm (Tensor.conv2d cfg.filters_out 1 1 1 1 false x2)
  let x4 := squeeze_excite_block x3 ratio
  Tensor.relu (Tensor.add shortcut x4)

/-- The `for _ in range(n) : x = identity_block(x, ...)` loop of `group`
(lines 127-129). -/
def idLoop (cfg : GroupCfg) (cardinality ratio : Nat) : Nat → Tensor → Tensor
  | 0, x => x
  | n + 1, x => idLoop cfg cardinality ratio n (identity_block x cfg cardinality ratio)

/-- Construct a Squeeze-Excite group (lines 115-130): one projection
block followed by `n_blocks - 1` identity blocks. -/
def group (x : Tensor) (sh sw : Nat) (cfg : GroupCfg)
    (cardinality ratio : Nat) : Tensor :=
  let x1 := projection_block x sh sw cfg cardinality ratio
  idLoop cfg cardinality ratio (cfg.n_blocks - 1) x1

/-- Construct the Learner (lines 100-113).  `groups.pop(0)` removes the
first group configuration from the caller's list (raising `IndexError`
when the list is empty); the first group is built with strides `(1, 1)`
and the remaining groups with the `group` default `(2, 2)`.  The second
component of the result is the state the caller's list is left in. -/
def learner (x : Tensor) (groups : List GroupCfg) (cardinality ratio : Nat) :
    Except String (Tensor × List GroupCfg) :=
  match groups with
  | [] => Except.error "IndexError: pop from empty list"
  | g0 :: rest =>
    let x1 := group x 1 1 g0 cardinality ratio
    Except.ok (rest.foldl (fun acc g => group acc 2 2 g cardinality ratio) x1, rest)

/-- Construct the Classifier (lines 291-300): global average pooling then
a softmax `Dense` layer with `n_classes` units (default `use_bias=True`). -/
def classifier (x : Tensor) (n_classes : Nat) : Tensor :=
  Tensor.dense n_classes .softmax true (Tensor.globalAvgPool x)

/-- The body of `__init__` shared by both branches (lines 66-79): input
tensor, stem, learner, classifier.  Returns the output graph and the
state the groups list was left in. -/
def buildGraph (gs : List GroupCfg) (cardinality ratio : Nat)
    (input_shape : List Nat) (n_classes : Nat) :
    Except String (Tensor × List GroupCfg) :=
  let inputs := Tensor.input input_shape
  let x := stem inputs
  match learner x gs cardinality ratio with
  | Except.error e => Except.error e
  | Except.ok (x, rest) => Except.ok (classifier x n_classes, rest)

/-- `SEResNeXt.__init__` (lines 49-79) as a state-passing function: an
integer depth is validated against `[50, 101, 152]` and selects the
(aliased) table entry, which the construction then mutates in place; a
user-defined list is used directly and the table is untouched. -/
def construct (tbl : Nat → List GroupCfg) (n_layers : Nat ⊕ List GroupCfg)
    (cardinality ratio : Nat) (input_shape : List Nat) (n_classes : Nat) :
    Except String (Tensor × (Nat → List GroupCfg)) :=
  match n_layers with
  | Sum.inl d =>
    if d ∈ [50, 101, 152] then
      match buildGraph (tbl d) cardinality ratio input_shape n_classes with
      | Except.error e => Except.error e
      | Except.ok (g, rest) => Except.ok (g, fun k => if k = d then rest else tbl k)
    else
      Except.error "SE-ResNeXt: Invalid value for n_layers"
  | Sum.inr gs =>
    match buildGraph gs cardinality ratio input_shape n_classes with
    | Except.error e => Except.error e
    | Except.ok (g, _) => Except.ok (g, tbl)

/-- The layer graph a construction produced, if it did not raise. -/
def graphOf (r : Except String (Tensor × (Nat → List GroupCfg))) : Option Tensor :=
  match r with
  | Except.ok (g, _) => some g
  | Except.error _ => none

/-- `senet = SEResNeXt(50)` with all defaults (`cardinality=32`,
`ratio=16`, `input_shape=(224, 224, 3)`, `n_classes=1000`), starting from
the pristine class table. -/
def firstRun : Except String (Tensor × (Nat → List GroupCfg)) :=
  construct groups (Sum.inl 50) 32 16 [224, 224, 3] 1000

/-- A second `SEResNeXt(50)` with the same arguments, run against the
class table the first construction left behind. -/
def secondRun : Except String (Tensor × (Nat → List GroupCfg)) :=
  match firstRun with
  | Except.ok (_, t) => construct t (Sum.inl 50) 32 16 [224, 224, 3] 1000
  | Except.error e => Except.error e

/-- The learner output of the first `SEResNeXt(50)` run: the four
predefined groups. -/
def L1 : Tensor :=
  group (group (group (group (stem (.input [224, 224, 3])) 1 1 ⟨128, 256, 3⟩ 32 16)
    2 2 ⟨256, 512, 4⟩ 32 16) 2 2 ⟨512, 1024, 6⟩ 32 16) 2 2 ⟨1024, 2048, 3⟩ 32 16

/-- The learner output of the second `SEResNeXt(50)` run: only the three
groups the first run left in the class table. -/
def L2 : Tensor :=
  group (group (group (stem (.input [224, 224, 3])) 1 1 ⟨256, 512, 4⟩ 32 16)
    2 2 ⟨512, 1024, 6⟩ 32 16) 2 2 ⟨1024, 2048, 3⟩ 32 16

end SEResNeXt

/-- The kinds of tensor operation the module can instantiate. -/
inductive OpKind where
  | input
  | conv
  | batchNorm
  | relu
  | maxPool
  | globalAvgPool
  | reshape
  | dense
  | multiply
  | add
  | slice
  | concat
deriving DecidableEq, Fintype

mutual
/-- All operation kinds occurring in a layer graph. -/
def kindsOf : Tensor → List OpKind
  | .input _ => [.input]
  | .conv2d _ _ _ _ _ _ x => .conv :: kindsOf x
  | .batchNorm x => .batchNorm :: kindsOf x
  | .relu x => .relu :: kindsOf x
  | .maxPool _ _ _ _ x => .maxPool :: kindsOf x
  | .globalAvgPool x => .globalAvgPool :: kindsOf x
  | .reshape _ x => .reshape :: kindsOf x
  | .dense _ _ _ x => .dense :: kindsOf x
  | .multiply a b => .multiply :: (kindsOf a ++ kindsOf b)
  | .add a b => .add :: (kindsOf a ++ kindsOf b)
  | .slice _ _ x => .slice :: kindsOf x
  | .concat xs => .concat :: kindsTL xs

/-- All operation kinds occurring in a `Concatenate` argument list. -/
def kindsTL : TensorList → List OpKind
  | .nil => []
  | .cons x xs => kindsOf x ++ kindsTL xs
end

/-- The operation kinds named by the specification: convolution,
batch-normalization, pooling, dense, element-wise multiply/add (together
with the input placeholder, which is not an operation). -/
def specOpKinds : List OpKind :=
  [.input, .conv, .batchNorm, .maxPool, .globalAvgPool, .dense, .multiply, .add]

/-- Every operation kind the module instantiates. -/
def allOpKinds : List OpKind :=
  [.input, .conv, .batchNorm, .relu, .maxPool, .globalAvgPool, .reshape, .dense,
   .multiply, .add, .slice, .concat]

/-- A deliberately small user-defined model (one group of one block,
cardinality 2, ratio 2, 8×8×3 input, 10 classes), used to enumerate the
operation kinds the assembled graph contains. -/
def tinyModel : Tensor :=
  match SEResNeXt.construct SEResNeXt.groups (Sum.inr [⟨4, 8, 1⟩]) 2 2 [8, 8, 3] 10 with
  | Except.ok (g, _) => g
  | Except.error _ => Tensor.input []

/-! ### Shape and channel computation lemmas -/

theorem cdiv_one (n : Nat) : cdiv n 1 = n := by
  simp [cdiv]

theorem cdiv_pos {n s : Nat} (hn : 1 ≤ n) (hs : 1 ≤ s) : 1 ≤ cdiv n s := by
  unfold cdiv
  rw [Nat.le_div_iff_mul_le hs]
  omega

theorem channelsTL_ofList (l : List Tensor) :
    channelsTL (TensorList.ofList l) = (l.map channels).sum := by
  induction l with
  | nil => rfl
  | cons x xs ih => simp [TensorList.ofList, channelsTL, ih]

namespace SEResNeXt

theorem channels_squeeze_excite (x : Tensor) (r : Nat) :
    channels (squeeze_excite_block x r) = channels x := by
  simp [squeeze_excite_block, channels]

theorem shape_squeeze_excite (x : Tensor) (r h w c : Nat)
    (hx : shape x = [h, w, c]) (hc : channels x = c)
    (hh : 1 ≤ h) (hw : 1 ≤ w) :
    shape (squeeze_excite_block x r) = shape x := by
  simp [squeeze_excite_block, shape, hx, hc, Nat.max_self, max_eq_left hh, max_eq_left hw]

theorem cardinality_layer_succ (x : Tensor) (fc sh sw n : Nat) :
    cardinality_layer x fc sh sw (n + 1) =
      Tensor.conv2d fc 3 3 sh sw false (Tensor.slice 0 fc x) ::
        (List.range n).map (fun i =>
          Tensor.conv2d fc 3 3 sh sw false
            (Tensor.slice ((i + 1) * fc) ((i + 1) * fc + fc) x)) := by
  simp [cardinality_layer, List.range_succ_eq_map, List.map_map, Function.comp]

theorem shape_projection_block (x : Tensor) (cfg : GroupCfg) (r sh sw n h w c : Nat)
    (hx : shape x = [h, w, c]) (hh : 1 ≤ h) (hw : 1 ≤ w)
    (hsh : 1 ≤ sh) (hsw : 1 ≤ sw) :
    shape (projection_block x sh sw cfg (n + 1) r) =
      [cdiv h sh, cdiv w sw, cfg.filters_out] := by
  simp [projection_block, squeeze_excite_block, cardinality_layer_succ, TensorList.ofList,
        shapeConcat, shape, channels, hx, cdiv_one, Nat.max_self,
        max_eq_left (cdiv_pos hh hsh), max_eq_left (cdiv_pos hw hsw)]

theorem shape_identity_block (x : Tensor) (cfg : GroupCfg) (r n h w : Nat)
    (hx : shape x = [h, w, cfg.filters_out]) (hh : 1 ≤ h) (hw : 1 ≤ w) :
    shape (identity_block x cfg (n + 1) r) = shape x := by
  simp [identity_block, identity_residual, squeeze_excite_block, cardinality_layer_succ,
        TensorList.ofList, shapeConcat, shape, channels, hx, cdiv_one, Nat.max_self,
        max_eq_left hh, max_eq_left hw]

theorem shape_idLoop (cfg : GroupCfg) (r n m h w : Nat) (x : Tensor)
    (hx : shape x = [h, w, cfg.filters_out]) (hh : 1 ≤ h) (hw : 1 ≤ w) :
    shape (idLoop cfg (n + 1) r m x) = [h, w, cfg.filters_out] := by
  induction m generalizing x with
  | zero => simpa [idLoop] using hx
  | succ m ih =>
    simp only [idLoop]
    exact ih _ (by rw [shape_identity_block x cfg r n h w hx hh hw]; exact hx)

theorem shape_group (x : Tensor) (cfg : GroupCfg) (r sh sw n h w c : Nat)
    (hx : shape x = [h, w, c]) (hh : 1 ≤ h) (hw : 1 ≤ w)
    (hsh : 1 ≤ sh) (hsw : 1 ≤ sw) :
    shape (group x sh sw cfg (n + 1) r) = [cdiv h sh, cdiv w sw, cfg.filters_out] := by
  simp only [group]
  exact shape_idLoop cfg r n _ _ _ _
    (shape_projection_block x cfg r sh sw n h w c hx hh hw hsh hsw)
    (cdiv_pos hh hsh) (cdiv_pos hw hsw)

theorem channels_identity_residual (x : Tensor) (cfg : GroupCfg) (n r : Nat) :
    channels (identity_residual x cfg n r) = cfg.filters_out := by
  simp [identity_residual, squeeze_excite_block, channels]

theorem channels_projection_block (x : Tensor) (sh sw : Nat) (cfg : GroupCfg) (n r : Nat) :
    channels (projection_block x sh sw cfg n r) = cfg.filters_out := by
  simp [projection_block, squeeze_excite_block, channels]

theorem channels_identity_block (x : Tensor) (cfg : GroupCfg) (n r : Nat)
    (hx : channels x = cfg.filters_out) :
    channels (identity_block x cfg n r) = channels x := by
  simp [identity_block, channels, channels_identity_residual, hx]

theorem channels_idLoop (cfg : GroupCfg) (n r m : Nat) (x : Tensor)
    (hx : channels x = cfg.filters_out) :
    channels (idLoop cfg n r m x) = cfg.filters_out := by
  induction m generalizing x with
  | zero => simpa [idLoop] using hx
  | succ m ih =>
    simp only [idLoop]
    exact ih _ (by rw [channels_identity_block x cfg n r hx]; exact hx)

theorem channels_group (x : Tensor) (sh sw : Nat) (cfg : GroupCfg) (n r : Nat) :
    channels (group x sh sw cfg n r) = cfg.filters_out := by
  simp only [group]
  exact channels_idLoop cfg n r _ _ (channels_projection_block x sh sw cfg n r)

end SEResNeXt

/-! ### The two successive `SEResNeXt(50)` constructions -/

namespace SEResNeXt

theorem firstRun_eq : graphOf firstRun = some (classifier L1 1000) := rfl

theorem secondRun_eq : graphOf secondRun = some (classifier L2 1000) := rfl

theorem shape_L1 : shape L1 = [7, 7, 2048] := by
  have h0 : shape (stem (Tensor.input [224, 224, 3])) = [56, 56, 64] := rfl
  have h1 := shape_group (stem (Tensor.input [224, 224, 3])) ⟨128, 256, 3⟩ 16 1 1 31
    56 56 64 h0 (by decide) (by decide) (by decide) (by decide)
  norm_num [cdiv] at h1
  have h2 := shape_group _ ⟨256, 512, 4⟩ 16 2 2 31 56 56 256 h1
    (by decide) (by decide) (by decide) (by decide)
  norm_num [cdiv] at h2
  have h3 := shape_group _ ⟨512, 1024, 6⟩ 16 2 2 31 28 28 512 h2
    (by decide) (by decide) (by decide) (by decide)
  norm_num [cdiv] at h3
  have h4 := shape_group _ ⟨1024, 2048, 3⟩ 16 2 2 31 14 14 1024 h3
    (by decide) (by decide) (by decide) (by decide)
  norm_num [cdiv] at h4
  exact h4

theorem shape_L2 : shape L2 = [14, 14, 2048] := by
  have h0 : shape (stem (Tensor.input [224, 224, 3])) = [56, 56, 64] := rfl
  have h1 := shape_group (stem (Tensor.input [224, 224, 3])) ⟨256, 512, 4⟩ 16 1 1 31
    56 56 64 h0 (by decide) (by decide) (by decide) (by decide)
  norm_num [cdiv] at h1
  have h2 := shape_group _ ⟨512, 1024, 6⟩ 16 2 2 31 56 56 512 h1
    (by decide) (by decide) (by decide) (by decide)
  norm_num [cdiv] at h2
  have h3 := shape_group _ ⟨1024, 2048, 3⟩ 16 2 2 31 28 28 1024 h2
    (by decide) (by decide) (by decide) (by decide)
  norm_num [cdiv] at h3
  exact h3

/-! ### Claim theorems -/

/-- Claim C1, counterexample: constructing `SEResNeXt(50)` twice with
identical arguments does **not** produce the same layer graph: both runs
succeed, yet the second graph differs from the first, because the first
construction popped the first group off the shared class table. -/
theorem seresnext50_rerun_graph_differs :
    (graphOf firstRun).isSome = true ∧ (graphOf secondRun).isSome = true ∧
      graphOf firstRun ≠ graphOf secondRun := by
  refine ⟨rfl, rfl, ?_⟩
  rw [firstRun_eq, secondRun_eq]
  intro h
  have h1 : classifier L1 1000 = classifier L2 1000 := Option.some.inj h
  have h2 : L1 = L2 := by
    simpa [classifier, Tensor.dense.injEq, Tensor.globalAvgPool.injEq] using h1
  have h3 := congrArg shape h2
  rw [shape_L1, shape_L2] at h3
  simp at h3

/-- Claim C1, amended: model construction is deterministic as a function
of its arguments *and the current groups-table state* (equal table states
give equal results), and a construction from a user-defined (non-integer)
groups list has no effect on the shared class table; but a predefined
integer depth mutates the table, so `SEResNeXt(50)` twice produces
different layer graphs. -/
theorem construct_deterministic_modulo_table :
    (∀ (tbl tbl2 : Nat → List GroupCfg) nl c r s n, (∀ k, tbl k = tbl2 k) →
        construct tbl nl c r s n = construct tbl2 nl c r s n) ∧
    (∀ (tbl : Nat → List GroupCfg) gs c r s n, gs ≠ [] →
        ∃ g, construct tbl (Sum.inr gs) c r s n = Except.ok (g, tbl)) := by
  constructor
  · intro tbl tbl2 nl c r s n hk
    have : tbl = tbl2 := funext hk
    rw [this]
  · intro tbl gs c r s n hgs
    match gs, hgs with
    | g0 :: rest, _ => exact ⟨_, rfl⟩

/-- Witness for `construct_deterministic_modulo_table` at concrete inputs. -/
theorem construct_deterministic_modulo_table_witness :
    construct groups (Sum.inl 50) 32 16 [224, 224, 3] 1000 =
      construct groups (Sum.inl 50) 32 16 [224, 224, 3] 1000 ∧
    ∃ g, construct groups (Sum.inr [⟨4, 8, 1⟩]) 2 2 [8, 8, 3] 10 =
      Except.ok (g, groups) :=
  ⟨construct_deterministic_modulo_table.1 groups groups _ 32 16 [224, 224, 3] 1000
      (fun _ => rfl),
   construct_deterministic_modulo_table.2 groups [⟨4, 8, 1⟩] 2 2 [8, 8, 3] 10 (by decide)⟩

/-- Claim C2: `learner` pops the first element of the `groups` list it
receives, so the caller's list ends up one element shorter (its tail);
for a predefined integer depth the list is an alias of the class-level
table entry, so constructing from the pristine table leaves the entry for
that depth permanently replaced by its tail. -/
theorem learner_pops_caller_list_and_table :
    (∀ x gs c r, gs ≠ [] →
        ∃ t, learner x gs c r = Except.ok (t, gs.tail) ∧
          gs.tail.length = gs.length - 1) ∧
    (∀ d, d ∈ [50, 101, 152] → ∀ c r s n,
        ∃ g, construct groups (Sum.inl d) c r s n =
          Except.ok (g, fun k => if k = d then (groups d).tail else groups k)) := by
  constructor
  · intro x gs c r hgs
    match gs, hgs with
    | g0 :: rest, _ => exact ⟨_, rfl, by simp⟩
  · intro d hd c r s n
    rcases (by simpa using hd : d = 50 ∨ d = 101 ∨ d = 152) with rfl | rfl | rfl
    · exact ⟨_, rfl⟩
    · exact ⟨_, rfl⟩
    · exact ⟨_, rfl⟩

/-- Witness for `learner_pops_caller_list_and_table` at concrete inputs. -/
theorem learner_pops_caller_list_and_table_witness :
    (∃ t, learner (Tensor.input [8, 8, 3]) [⟨4, 8, 1⟩] 2 2 =
        Except.ok (t, ([⟨4, 8, 1⟩] : List GroupCfg).tail) ∧
      ([⟨4, 8, 1⟩] : List GroupCfg).tail.length = ([⟨4, 8, 1⟩] : List GroupCfg).length - 1) ∧
    (∃ g, construct groups (Sum.inl 50) 32 16 [224, 224, 3] 1000 =
        Except.ok (g, fun k => if k = 50 then (groups 50).tail else groups k)) :=
  ⟨learner_pops_caller_list_and_table.1 (Tensor.input [8, 8, 3]) [⟨4, 8, 1⟩] 2 2 (by decide),
   learner_pops_caller_list_and_table.2 50 (by decide) 32 16 [224, 224, 3] 1000⟩

/-- Claim C3, counterexample: a non-integer `n_layers` is not always
"accepted": the empty user-defined list makes the constructor raise
(`IndexError` from `groups.pop(0)`), and that exception is not the
validation exception, so "raises an Exception exactly when `n_layers` is
an integer not in [50, 101, 152]" fails at `n_layers = []`. -/
theorem construct_raises_on_empty_user_list :
    construct SEResNeXt.groups (Sum.inr []) 32 16 [224, 224, 3] 1000 =
      Except.error "IndexError: pop from empty list" ∧
    "IndexError: pop from empty list" ≠ "SE-ResNeXt: Invalid value for n_layers" :=
  ⟨rfl, by decide⟩

/-- Claim C3, amended: the constructor raises the validation `Exception`
exactly when `n_layers` is an integer not in `[50, 101, 152]`; an integer
depth in the table selects the corresponding predefined group table (the
construction behaves exactly as if that table entry had been passed
directly); every non-integer value bypasses validation and is used
directly as the groups list, succeeding whenever the list is non-empty
but raising `IndexError` from `groups.pop(0)` on the empty list. -/
theorem construct_validation_behavior :
    (∀ d, ¬ d ∈ [50, 101, 152] → ∀ (tbl : Nat → List GroupCfg) c r s n,
        construct tbl (Sum.inl d) c r s n =
          Except.error "SE-ResNeXt: Invalid value for n_layers") ∧
    (∀ d, d ∈ [50, 101, 152] → ∀ c r s n,
        graphOf (construct groups (Sum.inl d) c r s n) =
          graphOf (construct groups (Sum.inr (groups d)) c r s n)) ∧
    (∀ (tbl : Nat → List GroupCfg) gs c r s n, gs ≠ [] →
        ∃ g, construct tbl (Sum.inr gs) c r s n = Except.ok (g, tbl)) ∧
    (∀ (tbl : Nat → List GroupCfg) c r s n,
        construct tbl (Sum.inr []) c r s n =
          Except.error "IndexError: pop from empty list") := by
  refine ⟨?_, ?_, ?_, ?_⟩
  · intro d hd tbl c r s n
    simp [construct, hd]
  · intro d hd c r s n
    rcases (by simpa using hd : d = 50 ∨ d = 101 ∨ d = 152) with rfl | rfl | rfl
    · rfl
    · rfl
    · rfl
  · intro tbl gs c r s n hgs
    match gs, hgs with
    | g0 :: rest, _ => exact ⟨_, rfl⟩
  · intro tbl c r s n
    rfl

/-- Witness for `construct_validation_behavior` at concrete inputs. -/
theorem construct_validation_behavior_witness :
    construct groups (Sum.inl 42) 32 16 [224, 224, 3] 1000 =
      Except.error "SE-ResNeXt: Invalid value for n_layers" ∧
    graphOf (construct groups (Sum.inl 101) 32 16 [224, 224, 3] 1000) =
      graphOf (construct groups (Sum.inr (groups 101)) 32 16 [224, 224, 3] 1000) ∧
    (∃ g, construct groups (Sum.inr [⟨4, 8, 1⟩]) 2 2 [8, 8, 3] 10 =
        Except.ok (g, groups)) ∧
    construct groups (Sum.inr []) 2 2 [8, 8, 3] 10 =
      Except.error "IndexError: pop from empty list" :=
  ⟨construct_validation_behavior.1 42 (by decide) groups 32 16 [224, 224, 3] 1000,
   construct_validation_behavior.2.1 101 (by decide) 32 16 [224, 224, 3] 1000,
   construct_validation_behavior.2.2.1 groups [⟨4, 8, 1⟩] 2 2 [8, 8, 3] 10 (by decide),
   construct_validation_behavior.2.2.2 groups 2 2 [8, 8, 3] 10⟩

/-- Claim C4: the constructor composes the network in the order stem,
learner, classifier: the input tensor is fed to `stem`, the stem output to
`learner`, and the learner output to `classifier`, which is global average
pooling followed by a softmax `Dense` layer with `n_classes` units. -/
theorem construct_stem_learner_classifier_order :
    ∀ (tbl : Nat → List GroupCfg) g0 rest c r s n, ∃ L,
      learner (stem (Tensor.input s)) (g0 :: rest) c r = Except.ok (L, rest) ∧
      construct tbl (Sum.inr (g0 :: rest)) c r s n =
        Except.ok (Tensor.dense n .softmax true (Tensor.globalAvgPool L), tbl) := by
  intro tbl g0 rest c r s n
  exact ⟨_, rfl, rfl⟩

/-- Claim C5: for the predefined depths the per-group block counts are
`[3, 4, 6, 3]`, `[3, 4, 23, 3]` and `[3, 8, 36, 3]`, and
`3 * (sum of n_blocks) + 2` recovers the depth. -/
theorem groups_table_blocks_and_depth :
    ((groups 50).map GroupCfg.n_blocks = [3, 4, 6, 3] ∧
      3 * ((groups 50).map GroupCfg.n_blocks).sum + 2 = 50) ∧
    ((groups 101).map GroupCfg.n_blocks = [3, 4, 23, 3] ∧
      3 * ((groups 101).map GroupCfg.n_blocks).sum + 2 = 101) ∧
    ((groups 152).map GroupCfg.n_blocks = [3, 8, 36, 3] ∧
      3 * ((groups 152).map GroupCfg.n_blocks).sum + 2 = 152) := by
  decide

end SEResNeXt

namespace SEResNeXt

theorem idLoop_eq_iterate (cfg : GroupCfg) (c r m : Nat) (x : Tensor) :
    idLoop cfg c r m x = (fun y => identity_block y cfg c r)^[m] x := by
  induction m generalizing x with
  | zero => rfl
  | succ m ih =>
    simp only [idLoop]
    rw [ih, Function.iterate_succ_apply]

/-- Claim C6: a group is exactly one projection block followed by
`n_blocks - 1` identity blocks, and `learner` builds the first group with
strides `(1, 1)` and every remaining group with the default `(2, 2)`. -/
theorem group_one_projection_then_identities :
    (∀ x sh sw cfg c r, 1 ≤ cfg.n_blocks →
        group x sh sw cfg c r =
          (fun y => identity_block y cfg c r)^[cfg.n_blocks - 1]
            (projection_block x sh sw cfg c r)) ∧
    (∀ x g0 rest c r,
        learner x (g0 :: rest) c r =
          Except.ok (rest.foldl (fun acc g => group acc 2 2 g c r)
            (group x 1 1 g0 c r), rest)) := by
  constructor
  · intro x sh sw cfg c r _
    simp only [group]
    exact idLoop_eq_iterate cfg c r (cfg.n_blocks - 1) _
  · intro x g0 rest c r
    rfl

/-- Witness for `group_one_projection_then_identities` at concrete inputs. -/
theorem group_one_projection_then_identities_witness :
    group (Tensor.input [8, 8, 3]) 1 1 ⟨4, 8, 2⟩ 2 2 =
      (fun y => identity_block y ⟨4, 8, 2⟩ 2 2)^[2 - 1]
        (projection_block (Tensor.input [8, 8, 3]) 1 1 ⟨4, 8, 2⟩ 2 2) :=
  group_one_projection_then_identities.1 (Tensor.input [8, 8, 3]) 1 1 ⟨4, 8, 2⟩ 2 2
    (by decide)

/-- Claim C7: the squeeze-excite block globally average-pools its input,
reshapes to `1×1×C`, applies a ReLU `Dense` with `C // ratio` units and a
sigmoid `Dense` restoring `C` units, multiplies element-wise with the
unmodified input, and returns a tensor of the same shape as its input. -/
theorem squeeze_excite_structure_and_shape :
    ∀ x r h w c, shape x = [h, w, c] → channels x = c → 1 ≤ h → 1 ≤ w →
      squeeze_excite_block x r =
        Tensor.multiply x
          (Tensor.dense c .sigmoid false
            (Tensor.dense (c / r) .relu false
              (Tensor.reshape [1, 1, c] (Tensor.globalAvgPool x)))) ∧
      shape (squeeze_excite_block x r) = shape x := by
  intro x r h w c hx hc hh hw
  constructor
  · simp [squeeze_excite_block, hc]
  · exact shape_squeeze_excite x r h w c hx hc hh hw

/-- Witness for `squeeze_excite_structure_and_shape` at a concrete input. -/
theorem squeeze_excite_structure_and_shape_witness :
    squeeze_excite_block (Tensor.input [8, 8, 4]) 2 =
      Tensor.multiply (Tensor.input [8, 8, 4])
        (Tensor.dense 4 .sigmoid false
          (Tensor.dense (4 / 2) .relu false
            (Tensor.reshape [1, 1, 4] (Tensor.globalAvgPool (Tensor.input [8, 8, 4]))))) ∧
    shape (squeeze_excite_block (Tensor.input [8, 8, 4]) 2) =
      shape (Tensor.input [8, 8, 4]) :=
  squeeze_excite_structure_and_shape (Tensor.input [8, 8, 4]) 2 8 8 4 rfl rfl
    (by decide) (by decide)

theorem sum_replicate_nat (n a : Nat) : (List.replicate n a).sum = n * a := by
  induction n with
  | zero => simp
  | succ n ih =>
    rw [List.replicate_succ, List.sum_cons, ih, Nat.succ_mul]
    omega

/-- Claim C9: the cardinality split produces exactly `cardinality`
branches, branch `i` slicing channels `[i*fc, (i+1)*fc)` with
`fc = filters_in // cardinality`; the concatenated transform has
`cardinality * fc` channels, which equals `filters_in` iff `cardinality`
divides `filters_in`; a channel index is covered by some branch iff it is
below `cardinality * fc`, so the trailing `filters_in mod cardinality`
channels are excluded. -/
theorem cardinality_split_properties :
    ∀ x filters_in c sh sw,
      (cardinality_layer x (filters_in / c) sh sw c).length = c ∧
      (∀ i, i < c → (cardinality_layer x (filters_in / c) sh sw c)[i]? =
          some (Tensor.conv2d (filters_in / c) 3 3 sh sw false
            (Tensor.slice (i * (filters_in / c))
              (i * (filters_in / c) + (filters_in / c)) x))) ∧
      channels (Tensor.concat
          (TensorList.ofList (cardinality_layer x (filters_in / c) sh sw c))) =
        c * (filters_in / c) ∧
      (c * (filters_in / c) = filters_in ↔ c ∣ filters_in) ∧
      (∀ j, (∃ i, i < c ∧ i * (filters_in / c) ≤ j ∧
            j < i * (filters_in / c) + (filters_in / c)) ↔
          j < c * (filters_in / c)) := by
  intro x filters_in c sh sw
  set fc := filters_in / c with hfc_def
  refine ⟨?_, ?_, ?_, ?_, ?_⟩
  · simp [cardinality_layer]
  · intro i hi
    simp [cardinality_layer, List.getElem?_map, List.getElem?_range hi]
  · have h1 : channels (Tensor.concat (TensorList.ofList (cardinality_layer x fc sh sw c))) =
        ((cardinality_layer x fc sh sw c).map channels).sum := by
      simp [channels, channelsTL_ofList]
    have h2 : (cardinality_layer x fc sh sw c).map channels =
        List.replicate c fc := by
      apply List.eq_replicate_iff.2
      refine ⟨by simp [cardinality_layer], ?_⟩
      intro b hb
      rw [List.mem_map] at hb
      obtain ⟨t, ht, rfl⟩ := hb
      simp only [cardinality_layer, List.mem_map] at ht
      obtain ⟨i, _, rfl⟩ := ht
      rfl
    rw [h1, h2, sum_replicate_nat]
  · constructor
    · intro hmul
      exact ⟨fc, hmul.symm⟩
    · intro hdvd
      exact Nat.mul_div_cancel' hdvd
  · intro j
    constructor
    · rintro ⟨i, hic, hlo, hhi⟩
      calc j < i * fc + fc := hhi
        _ = (i + 1) * fc := (Nat.succ_mul i fc).symm
        _ ≤ c * fc := Nat.mul_le_mul_right fc hic
    · intro hj
      have hfc : 0 < fc := by
        rcases Nat.eq_zero_or_pos fc with h0 | h0
        · rw [h0, Nat.mul_zero] at hj
          exact absurd hj (Nat.not_lt_zero j)
        · exact h0
      refine ⟨j / fc, (Nat.div_lt_iff_lt_mul hfc).2 hj, Nat.div_mul_le_self j fc, ?_⟩
      have h1 := Nat.div_add_mod j fc
      have h2 := Nat.mod_lt j hfc
      calc j = fc * (j / fc) + j % fc := h1.symm
        _ < fc * (j / fc) + fc := Nat.add_lt_add_left h2 _
        _ = j / fc * fc + fc := by rw [Nat.mul_comm]

/-- Witness for `cardinality_split_properties` at concrete inputs. -/
theorem cardinality_split_properties_witness :
    (cardinality_layer (Tensor.input [8, 8, 4]) (4 / 2) 1 1 2).length = 2 ∧
    (cardinality_layer (Tensor.input [8, 8, 4]) (4 / 2) 1 1 2)[1]? =
      some (Tensor.conv2d (4 / 2) 3 3 1 1 false
        (Tensor.slice (1 * (4 / 2)) (1 * (4 / 2) + (4 / 2)) (Tensor.input [8, 8, 4]))) ∧
    3 < 2 * (4 / 2) :=
  ⟨(cardinality_split_properties (Tensor.input [8, 8, 4]) 4 2 1 1).1,
   (cardinality_split_properties (Tensor.input [8, 8, 4]) 4 2 1 1).2.1 1 (by decide),
   ((cardinality_split_properties (Tensor.input [8, 8, 4]) 4 2 1 1).2.2.2.2 3).1
     ⟨1, by decide, by decide, by decide⟩⟩

/-- Claim C10: after a projection block the channel dimension equals
`filters_out`; an identity block's residual path ends with `filters_out`
channels and its squeeze-excite scaling keeps them, so when the block's
input has `filters_out` channels the `Add` of shortcut and residual is
channel-consistent and the block preserves the channel count; hence the
whole group outputs `filters_out` channels. -/
theorem group_channel_invariant :
    (∀ x sh sw cfg c r, channels (projection_block x sh sw cfg c r) = cfg.filters_out) ∧
    (∀ x cfg c r, channels x = cfg.filters_out →
        channels (identity_residual x cfg c r) = channels x ∧
        channels (identity_block x cfg c r) = channels x) ∧
    (∀ x sh sw cfg c r, channels (group x sh sw cfg c r) = cfg.filters_out) := by
  refine ⟨?_, ?_, ?_⟩
  · intro x sh sw cfg c r
    exact channels_projection_block x sh sw cfg c r
  · intro x cfg c r hx
    exact ⟨by rw [channels_identity_residual, hx], channels_identity_block x cfg c r hx⟩
  · intro x sh sw cfg c r
    exact channels_group x sh sw cfg c r

/-- Witness for `group_channel_invariant` at concrete inputs. -/
theorem group_channel_invariant_witness :
    channels (projection_block (Tensor.input [8, 8, 3]) 2 2 ⟨4, 8, 1⟩ 2 2) = 8 ∧
    (channels (identity_residual (Tensor.input [8, 8, 8]) ⟨4, 8, 2⟩ 2 2) =
        channels (Tensor.input [8, 8, 8]) ∧
      channels (identity_block (Tensor.input [8, 8, 8]) ⟨4, 8, 2⟩ 2 2) =
        channels (Tensor.input [8, 8, 8])) ∧
    channels (group (Tensor.input [8, 8, 3]) 2 2 ⟨4, 8, 1⟩ 2 2) = 8 :=
  ⟨group_channel_invariant.1 (Tensor.input [8, 8, 3]) 2 2 ⟨4, 8, 1⟩ 2 2,
   group_channel_invariant.2.1 (Tensor.input [8, 8, 8]) ⟨4, 8, 2⟩ 2 2 rfl,
   group_channel_invariant.2.2 (Tensor.input [8, 8, 3]) 2 2 ⟨4, 8, 1⟩ 2 2⟩

end SEResNeXt

/-- Claim C8, counterexample: the assembled graph of a concrete model
contains ReLU, reshape, channel-slice and concatenate operations, so the
operation kinds are not limited to convolution, batch-normalization,
pooling, dense and element-wise multiply/add. -/
theorem model_uses_kinds_beyond_spec_list :
    OpKind.relu ∈ kindsOf tinyModel ∧
    OpKind.reshape ∈ kindsOf tinyModel ∧
    OpKind.slice ∈ kindsOf tinyModel ∧
    OpKind.concat ∈ kindsOf tinyModel ∧
    ¬ (∀ k ∈ kindsOf tinyModel, k ∈ specOpKinds) := by
  decide

/-- Claim C8, amended: every tensor operation any constructed model
instantiates is one of convolution, batch-normalization, ReLU, pooling
(max or global-average), reshape, dense, element-wise multiply/add,
channel slice or concatenate (plus the input placeholder), and every one
of those kinds actually appears in an assembled graph. -/
theorem model_op_kinds_exact :
    (∀ (tbl : Nat → List GroupCfg) nl c r s n g t,
        SEResNeXt.construct tbl nl c r s n = Except.ok (g, t) →
        ∀ k ∈ kindsOf g, k ∈ allOpKinds) ∧
    (∀ k : OpKind, k ∈ kindsOf tinyModel ↔ k ∈ allOpKinds) := by
  constructor
  · intro tbl nl c r s n g t _ k _
    cases k <;> decide
  · decide

/-- Witness for `model_op_kinds_exact` at concrete inputs. -/
theorem model_op_kinds_exact_witness :
    OpKind.conv ∈ allOpKinds ∧
    (OpKind.reshape ∈ kindsOf tinyModel ↔ OpKind.reshape ∈ allOpKinds) :=
  ⟨model_op_kinds_exact.1 SEResNeXt.groups (Sum.inr [⟨4, 8, 1⟩]) 2 2 [8, 8, 3] 10
      tinyModel SEResNeXt.groups rfl OpKind.conv (by decide),
   model_op_kinds_exact.2 OpKind.reshape⟩
